import Mathlib

/-!
Shallow embedding of the MathAcademy dashboard ingestion-and-analytics
pipeline (src/js/pdf-parser.js, the statistics calculator, and
src/js/chart-helpers.js).

Modelling conventions:
* JavaScript numbers holding XP values are integers in this code base;
  they are embedded as `Int` (intermediate rates as `Rat`).
* A JavaScript `Date` is embedded as `Timestamp`: the local calendar day
  as a day index (days since 1970-01-01) plus the local hour of day.
  The host time zone is modelled as UTC, so `new Date("YYYY-MM-DD")`
  and local-midnight dates coincide.
* `Math.round` is `jsRound` (round half toward positive infinity).
* A JavaScript field that may be absent is embedded by its falsy
  default: absent string fields are `""`, absent numbers are `0`,
  matching the `x || d` coercions the source applies at every read.
-/

/-- JavaScript `Math.round`: round half up (toward positive infinity). -/
def jsRound (q : ℚ) : ℤ := ⌊q + 1/2⌋

/-- `Math.round(n / d)` for integers with `0 < d`, computed exactly in
integer arithmetic: `⌊n/d + 1/2⌋ = ⌊(2n + d) / (2d)⌋`.  Used wherever
the source rounds a ratio, so that the embedding evaluates inside the
kernel; `jsRoundDiv_eq` proves it agrees with `jsRound`. -/
def jsRoundDiv (n d : Int) : Int := Int.fdiv (2 * n + d) (2 * d)

/-- Value of a non-empty decimal digit string, as `parseInt` computes it
on a string known (from the regex) to consist of digits. -/
def digitsToNat (l : List Char) : Nat :=
  l.foldl (fun n c => n * 10 + (c.toNat - 48)) 0

/-- `needle.isEmpty`-correct substring test on character lists, the model
of JavaScript `String.prototype.includes`. -/
def hasSub (n : List Char) : List Char → Bool
  | [] => n.isEmpty
  | c :: t => n.isPrefixOf (c :: t) || hasSub n t

/-- JS `String.prototype.toLowerCase` on the ASCII data at hand. -/
def jsToLower (s : String) : String :=
  String.mk (s.data.map Char.toLower)

/-- Model of `taskName.toLowerCase().includes('quiz')`. -/
def containsQuiz (s : String) : Bool :=
  hasSub "quiz".data (jsToLower s).data

/-- Days since 1970-01-01 of a proleptic-Gregorian civil date
(Hinnant's algorithm); the model of the day a JS `Date` denotes. -/
def daysFromCivil (y m d : Int) : Int :=
  let y2 := if m ≤ 2 then y - 1 else y
  let era := Int.fdiv y2 400
  let yoe := y2 - era * 400
  let doy := Int.fdiv (153 * (m + (if 2 < m then -3 else 9)) + 2) 5 + d - 1
  let doe := yoe * 365 + Int.fdiv yoe 4 - Int.fdiv yoe 100 + doy
  era * 146097 + doe - 719468

/-- Civil date (year, month, day) of a day index; inverse of
`daysFromCivil`. -/
def civilFromDays (z : Int) : Int × Int × Int :=
  let z2 := z + 719468
  let era := Int.fdiv z2 146097
  let doe := z2 - era * 146097
  let yoe := Int.fdiv (doe - Int.fdiv doe 1460 + Int.fdiv doe 36524 - Int.fdiv doe 146096) 365
  let y := yoe + era * 400
  let doy := doe - (365 * yoe + Int.fdiv yoe 4 - Int.fdiv yoe 100)
  let mp := Int.fdiv (5 * doy + 2) 153
  let d := doy - Int.fdiv (153 * mp + 2) 5 + 1
  let m := mp + (if mp < 10 then 3 else -9)
  (y + (if m ≤ 2 then 1 else 0), m, d)

/-- `String(n).padStart(2, '0')`. -/
def pad2 (n : Int) : String :=
  if 0 ≤ n ∧ n < 10 then "0" ++ toString n else toString n

/-- Model of `ChartHelpers.toLocalDateString`: render a day index as
`YYYY-MM-DD` (year unpadded, month and day zero-padded), as the source
builds it from `getFullYear`/`getMonth`/`getDate`. -/
def toLocalDateString (day : Int) : String :=
  let c := civilFromDays day
  toString c.1 ++ "-" ++ pad2 c.2.1 ++ "-" ++ pad2 c.2.2

def weekdayNamesShort : List String :=
  ["Sun", "Mon", "Tue", "Wed", "Thu", "Fri", "Sat"]

def monthNamesShort : List String :=
  ["Jan", "Feb", "Mar", "Apr", "May", "Jun",
   "Jul", "Aug", "Sep", "Oct", "Nov", "Dec"]

/-- JS `Date.prototype.getDay`: 0 (Sunday) .. 6; 1970-01-01 was a
Thursday. -/
def weekdayIdx (day : Int) : Int := Int.emod (day + 4) 7

/-- Model of `Date.prototype.toDateString`, the daily-stats bucket key
of the statistics calculator ("Mon Jan 05 2026"). -/
def toDateString (day : Int) : String :=
  let c := civilFromDays day
  weekdayNamesShort.getD (weekdayIdx day).toNat "" ++ " " ++
    monthNamesShort.getD (c.2.1 - 1).toNat "" ++ " " ++
    pad2 c.2.2 ++ " " ++ toString c.1

/-- A JS `Date`, reduced to what the pipeline reads from it: local
calendar day index and local hour of day. -/
structure Timestamp where
  day : Int
  hour : Fin 24
deriving DecidableEq, Repr

/-- Millisecond value of the timestamp (as used by the numeric sort
comparators `new Date(a.timestamp) - new Date(b.timestamp)`). -/
def Timestamp.ms (t : Timestamp) : Int :=
  t.day * 86400000 + (t.hour.val : Int) * 3600000

/-- An activity record as the parser constructs it and the analytics
code reads it.  `taskName` is read (`activity.taskName || ''`) by the
classification code but never written by any producer in the repo; it
defaults to the falsy `""`. -/
structure Activity where
  timestamp : Timestamp
  type : String
  course : String := ""
  title : String := ""
  taskName : String := ""
  earned : Int := 0
  base : Int := 0
  maxXP : Int := 0
  percentage : Int := 0
  isSuccess : Bool := false
  date : String := ""
  rawText : String := ""
deriving DecidableEq, Repr

/-! ### Regular-expression engine

The parser's three regexes are embedded as backtracking matchers over
character lists.  A matcher returns every admissible
(consumed, captures, rest) split in regex preference order (greedy
alternatives longest first, lazy ones shortest first, alternation left
to right), so the head of the list is the match JavaScript's engine
produces. -/

abbrev RxRes := List (List Char × List String × List Char)

abbrev Rx := List Char → RxRes

/-- Match the empty string. -/
def rxEps : Rx := fun s => [([], [], s)]

/-- Match a literal. -/
def rxLit (t : String) : Rx := fun s =>
  if t.data.isPrefixOf s then [(t.data, [], s.drop t.data.length)] else []

/-- Match a single character of a class. -/
def rxCls (p : Char → Bool) : Rx := fun s =>
  match s with
  | [] => []
  | c :: t => if p c then [([c], [], t)] else []

/-- Sequencing, preserving preference order. -/
def rxSeq (a b : Rx) : Rx := fun s =>
  (a s).flatMap fun x =>
    match x with
    | (c1, k1, r1) =>
      (b r1).map fun y =>
        match y with
        | (c2, k2, r2) => (c1 ++ c2, k1 ++ k2, r2)

def rxSeqs (l : List Rx) : Rx := l.foldr rxSeq rxEps

/-- Alternation, left branch preferred. -/
def rxAlt (a b : Rx) : Rx := fun s => a s ++ b s

def rxAlts (l : List Rx) : Rx := l.foldr rxAlt (fun _ => [])

/-- Greedy option. -/
def rxOpt (a : Rx) : Rx := fun s => a s ++ [([], [], s)]

/-- Capture group: append the consumed text to the capture list. -/
def rxCap (a : Rx) : Rx := fun s =>
  (a s).map fun x =>
    match x with
    | (c, k, r) => (c, k ++ [String.mk c], r)

/-- Greedy `p+` over a character class, longest first. -/
def rxPlusGreedy (p : Char → Bool) : Rx := fun s =>
  let run := s.takeWhile p
  (List.range run.length).map fun i =>
    let n := run.length - i
    (run.take n, [], s.drop n)

/-- Greedy `p*` over a character class, longest first. -/
def rxStarGreedy (p : Char → Bool) : Rx := fun s =>
  let run := s.takeWhile p
  (List.range (run.length + 1)).map fun i =>
    let n := run.length - i
    (run.take n, [], s.drop n)

/-- Lazy `p*?` over a character class, shortest first. -/
def rxStarLazy (p : Char → Bool) : Rx := fun s =>
  let run := s.takeWhile p
  (List.range (run.length + 1)).map fun n => (run.take n, [], s.drop n)

/-- First (preferred) match of a pattern at the start of the input. -/
def rxFirstAt (m : Rx) (s : List Char) : Option (List Char × List String) :=
  match m s with
  | [] => none
  | (c, k, _) :: _ => some (c, k)

/-- Leftmost match at or after the given absolute position, as
`RegExp.prototype.exec` finds it. -/
def rxScan (m : Rx) : List Char → Nat → Option (Nat × List Char × List String)
  | [], pos => (rxFirstAt m []).map fun x => (pos, x)
  | c :: t, pos =>
    match rxFirstAt m (c :: t) with
    | some x => some (pos, x)
    | none => rxScan m t (pos + 1)

def rxExecAllAux (m : Rx) (orig : List Char) :
    Nat → Nat → List (Nat × List Char × List String)
  | 0, _ => []
  | Nat.succ fuel, pos =>
    match rxScan m (orig.drop pos) pos with
    | none => []
    | some (p, c, k) =>
      let next := p + max c.length 1
      (p, c, k) :: rxExecAllAux m orig fuel next

/-- All matches of a `/g` regex with their positions, consumed text and
captures, in order of appearance. -/
def rxExecAll (m : Rx) (s : List Char) : List (Nat × List Char × List String) :=
  rxExecAllAux m s (s.length + 1) 0

/-! ### Character classes -/

/-- JS `\s` restricted to the whitespace forms occurring in extracted
page text. -/
def wsChar (c : Char) : Bool :=
  c == ' ' || c == '\t' || c == '\n' || c == '\r' || c == '\x0b' || c == '\x0c'

def digitChar (c : Char) : Bool := c.isDigit

/-- JS `String.prototype.trim` on the data at hand. -/
def jsTrim (s : String) : String :=
  String.mk (((s.data.dropWhile wsChar).reverse.dropWhile wsChar).reverse)

def wordChar (c : Char) : Bool := c.isAlphanum || c == '_'

def alphaChar (c : Char) : Bool := c.isAlpha

/-- JS `.`: any character except line terminators. -/
def dotChar (c : Char) : Bool :=
  !(c == '\n' || c == '\r' || c == '\u2028' || c == '\u2029')

/-! ### The three source regexes -/

/-- `/(Mon|Tue|Wed|Thu|Fri|Sat|Sun),\s+[A-Za-z]{3}\s+\d{1,2}(?:st|nd|rd|th)?,\s+\d{4}/g` -/
def datePat : Rx :=
  rxSeqs
    [rxCap (rxAlts [rxLit "Mon", rxLit "Tue", rxLit "Wed", rxLit "Thu",
        rxLit "Fri", rxLit "Sat", rxLit "Sun"]),
     rxLit ",",
     rxPlusGreedy wsChar,
     rxSeqs [rxCls alphaChar, rxCls alphaChar, rxCls alphaChar],
     rxPlusGreedy wsChar,
     rxAlt (rxSeqs [rxCls digitChar, rxCls digitChar]) (rxCls digitChar),
     rxOpt (rxAlts [rxLit "st", rxLit "nd", rxLit "rd", rxLit "th"]),
     rxLit ",",
     rxPlusGreedy wsChar,
     rxSeqs [rxCls digitChar, rxCls digitChar, rxCls digitChar, rxCls digitChar]]

/-- `/(Mathematical Foundations \w+)\s+(Placement|Supplemental)\s+(\d+)\s*\/\s*XP/g` -/
def diagPat : Rx :=
  rxSeqs
    [rxCap (rxSeq (rxLit "Mathematical Foundations ") (rxPlusGreedy wordChar)),
     rxPlusGreedy wsChar,
     rxCap (rxAlt (rxLit "Placement") (rxLit "Supplemental")),
     rxPlusGreedy wsChar,
     rxCap (rxPlusGreedy digitChar),
     rxStarGreedy wsChar,
     rxLit "/",
     rxStarGreedy wsChar,
     rxLit "XP"]

/-- `/(Mathematical Foundations \w+)\s+(Lesson|Review|Quiz|Diagnostic|Multistep)\s+(.*?)\s+(\d+)\s*\/\s*(\d+)\s*XP/g` -/
def actPat : Rx :=
  rxSeqs
    [rxCap (rxSeq (rxLit "Mathematical Foundations ") (rxPlusGreedy wordChar)),
     rxPlusGreedy wsChar,
     rxCap (rxAlts [rxLit "Lesson", rxLit "Review", rxLit "Quiz",
        rxLit "Diagnostic", rxLit "Multistep"]),
     rxPlusGreedy wsChar,
     rxCap (rxStarLazy dotChar),
     rxPlusGreedy wsChar,
     rxCap (rxPlusGreedy digitChar),
     rxStarGreedy wsChar,
     rxLit "/",
     rxStarGreedy wsChar,
     rxCap (rxPlusGreedy digitChar),
     rxStarGreedy wsChar,
     rxLit "XP"]

/-! ### Date resolution (`PDFDataParser.parseDate`) -/

/-- The anchored replace
`^(Mon|Tue|Wed|Thu|Fri|Sat|Sun),?\s*` with the empty string. -/
def stripWeekday (l : List Char) : List Char :=
  if ["Mon", "Tue", "Wed", "Thu", "Fri", "Sat", "Sun"].any
      (fun w => w.data.isPrefixOf l) then
    let r := l.drop 3
    let r2 := if r.head? = some ',' then r.drop 1 else r
    r2.dropWhile wsChar
  else l

def ordSuffix (l : List Char) : Bool :=
  ["st", "nd", "rd", "th"].any (fun w => w.data.isPrefixOf l)

/-- Replace the first occurrence of `(\d+)(st|nd|rd|th)` by its digits.
The suffix cannot start with a digit, so the leftmost match uses a
maximal digit run. -/
def stripOrdinal : List Char → List Char
  | [] => []
  | c :: rest =>
    if c.isDigit then
      let run := (c :: rest).takeWhile Char.isDigit
      let after := (c :: rest).drop run.length
      if ordSuffix after then run ++ after.drop 2
      else c :: stripOrdinal rest
    else c :: stripOrdinal rest

/-- Capitalization helper for the case-insensitive month lookup. -/
def capFirst : List Char → List Char
  | [] => []
  | c :: t => c.toUpper :: t

def jsMonthNumber (s : String) : Option Int :=
  (monthNamesShort.indexOf? (String.mk (capFirst (s.data.map Char.toLower)))).map
    fun i => (i : Int) + 1

/-- Model of the host `new Date(str)` parser on the remainder shapes the
cleaning steps produce (`"Jan 5, 2026"`): three-letter month name
(case-insensitive), day in 1..31, optional comma, four-digit year.
`none` stands for an `Invalid Date`. -/
def jsDateParseCivil (l : List Char) : Option Int :=
  let l1 := l.dropWhile wsChar
  let mon := l1.takeWhile Char.isAlpha
  let r1 := (l1.drop mon.length).dropWhile wsChar
  let dayDigits := r1.takeWhile Char.isDigit
  let r2 := (r1.drop dayDigits.length)
  let r3 := (if r2.head? = some ',' then r2.drop 1 else r2).dropWhile wsChar
  let yearDigits := r3.takeWhile Char.isDigit
  let r4 := (r3.drop yearDigits.length).dropWhile wsChar
  match jsMonthNumber (String.mk mon) with
  | none => none
  | some m =>
    if dayDigits.length = 0 ∨ yearDigits.length = 0 ∨ r4.length ≠ 0 then none
    else
      let d := (digitsToNat dayDigits : Int)
      if 1 ≤ d ∧ d ≤ 31 then
        some (daysFromCivil (digitsToNat yearDigits : Int) m d)
      else none

/-- `PDFDataParser.parseDate`: strip the weekday prefix and the ordinal
suffix, parse the remainder; on failure fall back to the current date
(`now`). -/
def parseDate (now : Timestamp) (dateStr : String) : Timestamp :=
  match jsDateParseCivil (stripOrdinal (stripWeekday dateStr.data)) with
  | some day => { day := day, hour := 0 }
  | none => now

/-! ### `PDFDataParser.normalizeActivityType` -/

def normalizeActivityType (type : String) : String :=
  if type = "" then "lesson"
  else
    let n := jsTrim (jsToLower type)
    if n = "lesson" ∨ n = "lessons" then "lesson"
    else if n = "review" ∨ n = "reviews" then "review"
    else if n = "quiz" ∨ n = "quizzes" then "quiz"
    else if n = "diagnostic" ∨ n = "diagnostics" ∨ n = "placement"
        ∨ n = "supplemental" then "diagnostic"
    else if n = "multistep" ∨ n = "multisteps" ∨ n = "practice" then "multistep"
    else "lesson"

/-! ### `PDFDataParser.parseActivitySection` -/

/-- Build one diagnostic-pass activity from a `diagPat` match:
`earned = base = parseInt(xp) || 63`. -/
def mkDiag (now : Timestamp) (dateStr : String)
    (m : Nat × List Char × List String) : Activity :=
  let caps := m.2.2
  let raw := m.2.1
  let course := (caps.get? 0).getD ""
  let ty := (caps.get? 1).getD ""
  let xpStr := (caps.get? 2).getD ""
  let earnedXP : Int := if digitsToNat xpStr.data = 0 then 63 else (digitsToNat xpStr.data : Int)
  { date := dateStr
    timestamp := parseDate now dateStr
    type := "diagnostic"
    course := jsTrim course
    title := ty ++ " Activity"
    earned := earnedXP
    maxXP := earnedXP
    base := earnedXP
    percentage := 100
    isSuccess := true
    rawText := String.mk raw }

/-- Build one graded-pass activity from an `actPat` match. -/
def mkGraded (now : Timestamp) (dateStr : String)
    (m : Nat × List Char × List String) : Activity :=
  let caps := m.2.2
  let raw := m.2.1
  let course := (caps.get? 0).getD ""
  let ty := (caps.get? 1).getD ""
  let desc := (caps.get? 2).getD ""
  let earnedStr := (caps.get? 3).getD ""
  let maxStr := (caps.get? 4).getD ""
  let earned : Int := (digitsToNat earnedStr.data : Int)
  let base : Int :=
    if digitsToNat maxStr.data = 0 then (digitsToNat earnedStr.data : Int)
    else (digitsToNat maxStr.data : Int)
  let percentage : Int :=
    if 0 < base then jsRoundDiv (earned * 100) base else 100
  { date := dateStr
    timestamp := parseDate now dateStr
    type := normalizeActivityType ty
    course := jsTrim course
    title := jsTrim desc
    earned := earned
    maxXP := base
    base := base
    percentage := percentage
    isSuccess := decide (70 ≤ percentage)
    rawText := String.mk raw }

/-- The diagnostic extraction pass over one date section. -/
def diagPass (now : Timestamp) (dateStr sectionText : String) : List Activity :=
  (rxExecAll diagPat sectionText.data).map (mkDiag now dateStr)

/-- The graded extraction pass over one date section. -/
def gradedPass (now : Timestamp) (dateStr sectionText : String) : List Activity :=
  (rxExecAll actPat sectionText.data).map (mkGraded now dateStr)

/-- `PDFDataParser.parseActivitySection`: graded matches first, then the
diagnostic matches are appended. -/
def parseActivitySection (now : Timestamp) (dateStr sectionText : String) :
    List Activity :=
  gradedPass now dateStr sectionText ++ diagPass now dateStr sectionText

/-! ### `PDFDataParser.parseActivities` -/

/-- Pair each date-header match with its section text: from the end of
the header to the start of the next header (or end of text). -/
def sectionsOf (t : List Char) :
    List (Nat × List Char × List String) → List (String × String)
  | [] => []
  | (pos, c, _) :: rest =>
    let startIdx := pos + c.length
    let endIdx := match rest.head? with
      | some (np, _, _) => np
      | none => t.length
    (String.mk c, String.mk ((t.drop startIdx).take (endIdx - startIdx)))
      :: sectionsOf t rest

def parseActivities (now : Timestamp) (text : String) : List Activity :=
  let t := text.data
  let sections := sectionsOf t (rxExecAll datePat t)
  let activities := sections.flatMap fun s =>
    if 10 < s.2.length then parseActivitySection now s.1 s.2 else []
  activities.filter fun a => !(a.type == "")

/-! ### StatisticsCalculator -/

/-- The quiz-by-name check shared by the classification code:
`(activity.taskName || '').toLowerCase().includes('quiz')`. -/
def isQuizA (a : Activity) : Bool := containsQuiz a.taskName

/-- The shared diagnostic predicate:
`!isQuiz && (type === 'diagnostic' || type === 'assessment' || type === 'supplemental diagnostic')`
on the lower-cased type. -/
def isDiagnosticA (a : Activity) : Bool :=
  !isQuizA a &&
    (jsToLower a.type == "diagnostic" || jsToLower a.type == "assessment" ||
      jsToLower a.type == "supplemental diagnostic")

structure ActivityCounts where
  diagnostics : Nat
  lessons : Nat
  reviews : Nat
  multisteps : Nat
  quizzes : Nat
deriving DecidableEq, Repr

/-- `StatisticsCalculator.calculateActivityCounts`. -/
def calculateActivityCounts (data : List Activity) : ActivityCounts :=
  data.foldl
    (fun c a =>
      if isQuizA a then { c with quizzes := c.quizzes + 1 }
      else
        let t := jsToLower a.type
        if t = "diagnostic" ∨ t = "assessment" ∨ t = "supplemental diagnostic" then
          { c with diagnostics := c.diagnostics + 1 }
        else if t = "lesson" then { c with lessons := c.lessons + 1 }
        else if t = "review" then { c with reviews := c.reviews + 1 }
        else if t = "multistep" then { c with multisteps := c.multisteps + 1 }
        else if t = "quiz" then { c with quizzes := c.quizzes + 1 }
        else c)
    ⟨0, 0, 0, 0, 0⟩

/-- `totalEarned`/`totalPossible` are carried in the source's result
object; the empty-stats literal omits them, modelled by the falsy 0. -/
structure SuccessMetrics where
  perfectCount : Nat
  passCount : Nat
  failCount : Nat
  successRate : ℚ
  totalEarned : Int := 0
  totalPossible : Int := 0
deriving DecidableEq, Repr

/-- One step of the perfect/pass/fail partition loop of
`calculateSuccessMetrics`. -/
def succStep (acc : Nat × Nat × Nat) (a : Activity) : Nat × Nat × Nat :=
  if isDiagnosticA a then
    if 0 < a.earned then (acc.1, acc.2.1 + 1, acc.2.2)
    else (acc.1, acc.2.1, acc.2.2 + 1)
  else
    if a.base < a.earned then (acc.1 + 1, acc.2.1, acc.2.2)
    else if 0 < a.earned ∧ a.earned ≤ a.base then (acc.1, acc.2.1 + 1, acc.2.2)
    else (acc.1, acc.2.1, acc.2.2 + 1)

/-- One step of the attainment loop of `calculateSuccessMetrics`. -/
def attainStep (acc : Int × Int) (a : Activity) : Int × Int :=
  if isDiagnosticA a then (acc.1 + a.earned, acc.2 + a.earned)
  else (acc.1 + a.earned, acc.2 + a.base)

/-- `StatisticsCalculator.calculateSuccessMetrics`: the perfect/pass/fail
partition loop, then the attainment loop, then
`successRate = Math.round(rate * 10) / 10` (unclamped). -/
def calculateSuccessMetrics (data : List Activity) : SuccessMetrics :=
  let c := data.foldl succStep (0, 0, 0)
  let t := data.foldl attainStep (0, 0)
  { perfectCount := c.1
    passCount := c.2.1
    failCount := c.2.2
    successRate :=
      if 0 < t.2 then (jsRoundDiv (t.1 * 1000) t.2 : ℚ) / 10 else 0
    totalEarned := t.1
    totalPossible := t.2 }

/-- `StatisticsCalculator.calculateTotalXP`. -/
def calculateTotalXP (data : List Activity) : Int :=
  data.foldl (fun sum a => sum + a.earned) 0

structure DayStat where
  date : Timestamp
  xp : Int
  earned : Int
  base : Int
  count : Nat
  activities : List Activity
deriving DecidableEq, Repr

def updDayStat (a : Activity) (s : DayStat) : DayStat :=
  { s with xp := s.xp + a.earned
           earned := s.earned + a.earned
           base := s.base + a.base
           count := s.count + 1
           activities := s.activities ++ [a] }

def emptyDayStat (t : Timestamp) : DayStat :=
  { date := t, xp := 0, earned := 0, base := 0, count := 0, activities := [] }

/-- `StatisticsCalculator.calculateDailyStats`: buckets keyed by
`toDateString`, in insertion (first-occurrence) order. -/
def calculateDailyStats (data : List Activity) : List (String × DayStat) :=
  data.foldl
    (fun ds a =>
      let key := toDateString a.timestamp.day
      if ds.any (fun p => p.1 == key) then
        ds.map (fun p => if p.1 == key then (p.1, updDayStat a p.2) else p)
      else ds ++ [(key, updDayStat a (emptyDayStat a.timestamp))])
    []

/-- `StatisticsCalculator.calculateAvgXPPerDay`. -/
def calculateAvgXPPerDay (data : List Activity) : Int :=
  let uniqueDays := (calculateDailyStats data).length
  if 0 < uniqueDays then jsRoundDiv (calculateTotalXP data) (uniqueDays : Int)
  else 0

structure XpCount where
  xp : Int
  count : Nat
deriving DecidableEq, Repr

def updAt {α : Type} : List α → Nat → (α → α) → List α
  | [], _, _ => []
  | x :: t, 0, f => f x :: t
  | x :: t, Nat.succ i, f => x :: updAt t i f

def weekdayNamesFull : List String :=
  ["Sunday", "Monday", "Tuesday", "Wednesday", "Thursday", "Friday", "Saturday"]

structure WeekdayStats where
  weekdayStats : List XpCount
  bestWeekday : String
  bestWeekdayAvg : Int
deriving DecidableEq, Repr

/-- `StatisticsCalculator.calculateWeekdayStats`. -/
def calculateWeekdayStats (data : List Activity) : WeekdayStats :=
  let ws := data.foldl
    (fun ws a =>
      let d := weekdayIdx a.timestamp.day
      if 0 ≤ d ∧ d ≤ 6 then
        updAt ws d.toNat (fun s => { xp := s.xp + a.earned, count := s.count + 1 })
      else ws)
    (List.replicate 7 ⟨0, 0⟩)
  let best := (ws.zip weekdayNamesFull).foldl
    (fun (acc : ℚ × String) s =>
      let avg : ℚ := if 0 < s.1.count then (s.1.xp : ℚ) / (s.1.count : ℚ) else 0
      if acc.1 < avg then (avg, s.2) else acc)
    (0, "")
  { weekdayStats := ws, bestWeekday := best.2, bestWeekdayAvg := jsRound best.1 }

structure BestPerformance where
  bestDayXP : Int
  bestDayDate : String
  bestAccuracy : ℚ
  bestAccuracyDate : String
deriving DecidableEq, Repr

/-- `StatisticsCalculator.calculateBestPerformance`: best day by XP and
best day by non-diagnostic accuracy over the daily buckets, in
insertion order. -/
def calculateBestPerformance (data : List Activity) : BestPerformance :=
  let r := (calculateDailyStats data).foldl
    (fun (acc : (Int × String) × ℚ × String) e =>
      let byXP := if acc.1.1 < e.2.xp then (e.2.xp, e.1) else acc.1
      let nd := e.2.activities.foldl
        (fun (p : Int × Int) a =>
          if isDiagnosticA a then p else (p.1 + a.earned, p.2 + a.base))
        (0, 0)
      let accuracy : ℚ := if 0 < nd.2 then (nd.1 : ℚ) / (nd.2 : ℚ) * 100 else 0
      let byAcc := if acc.2.1 < accuracy ∧ 0 < nd.2 then (accuracy, e.1) else acc.2
      (byXP, byAcc))
    ((0, ""), 0, "")
  { bestDayXP := r.1.1
    bestDayDate := r.1.2
    bestAccuracy := (jsRound (r.2.1 * 10) : ℚ) / 10
    bestAccuracyDate := r.2.2 }

structure Last14Entry where
  day : Int
  label : String
  xp : Int
  count : Nat
deriving DecidableEq, Repr

/-- `StatisticsCalculator.getLast14Days`: the 14 calendar days ending
today, labels `M/D`, with zero defaults for inactive days. -/
def getLast14Days (today : Int) (data : List Activity) : List Last14Entry :=
  let dailyStats := calculateDailyStats data
  (List.range 14).map fun j =>
    let day := today - 13 + (j : Int)
    let c := civilFromDays day
    let s := (dailyStats.find? (fun p => p.1 == toDateString day)).map (fun p => p.2)
    { day := day
      label := toString c.2.1 ++ "/" ++ toString c.2.2
      xp := (s.map (fun v => v.xp)).getD 0
      count := (s.map (fun v => v.count)).getD 0 }

/-- `formatHour` inside `calculateTimeAnalysis`. -/
def formatHour (hour : Nat) : String :=
  let ampm := if 12 ≤ hour then "PM" else "AM"
  let displayHour := if hour = 0 then 12 else if 12 < hour then hour - 12 else hour
  toString displayHour ++ ":00 " ++ ampm

structure TimeAnalysis where
  hourlyStats : List XpCount
  mostProductiveHour : String
  maxHourlyXP : Int
deriving DecidableEq, Repr

/-- `StatisticsCalculator.calculateTimeAnalysis`. -/
def calculateTimeAnalysis (data : List Activity) : TimeAnalysis :=
  let hs := data.foldl
    (fun hs a =>
      updAt hs a.timestamp.hour.val (fun s => { xp := s.xp + a.earned, count := s.count + 1 }))
    (List.replicate 24 ⟨0, 0⟩)
  let best := hs.enum.foldl
    (fun (acc : Nat × Int) s => if acc.2 < s.2.xp then (s.1, s.2.xp) else acc)
    (0, 0)
  { hourlyStats := hs
    mostProductiveHour := formatHour best.1
    maxHourlyXP := best.2 }

structure Stats where
  totalXP : Int
  totalActivities : Nat
  activityCounts : ActivityCounts
  successMetrics : SuccessMetrics
  avgXPPerDay : Int
  dailyStats : List (String × DayStat)
  weekdayStats : WeekdayStats
  bestPerformance : BestPerformance
  last14Days : List Last14Entry
  timeAnalysis : TimeAnalysis
deriving DecidableEq, Repr

/-- `StatisticsCalculator.getEmptyStats`. -/
def getEmptyStats : Stats :=
  { totalXP := 0
    totalActivities := 0
    activityCounts := ⟨0, 0, 0, 0, 0⟩
    successMetrics := { perfectCount := 0, passCount := 0, failCount := 0, successRate := 0 }
    avgXPPerDay := 0
    dailyStats := []
    weekdayStats :=
      { weekdayStats := List.replicate 7 ⟨0, 0⟩, bestWeekday := "", bestWeekdayAvg := 0 }
    bestPerformance :=
      { bestDayXP := 0, bestDayDate := "", bestAccuracy := 0, bestAccuracyDate := "" }
    last14Days := []
    timeAnalysis :=
      { hourlyStats := List.replicate 24 ⟨0, 0⟩, mostProductiveHour := "", maxHourlyXP := 0 } }

/-- `StatisticsCalculator.calculateStats`, with the ambient current date
(used by `getLast14Days`) passed explicitly. -/
def calculateStats (today : Int) (data : List Activity) : Stats :=
  if data.isEmpty then getEmptyStats
  else
    { totalXP := calculateTotalXP data
      totalActivities := data.length
      activityCounts := calculateActivityCounts data
      successMetrics := calculateSuccessMetrics data
      avgXPPerDay := calculateAvgXPPerDay data
      dailyStats := calculateDailyStats data
      weekdayStats := calculateWeekdayStats data
      bestPerformance := calculateBestPerformance data
      last14Days := getLast14Days today data
      timeAnalysis := calculateTimeAnalysis data }

/-! ### ChartHelpers -/

/-- Stable insertion sort, the model of ES2019 `Array.prototype.sort`
with a numeric ascending comparator. -/
def insertLe {α : Type} (le : α → α → Bool) (x : α) : List α → List α
  | [] => [x]
  | y :: r => if le x y then x :: y :: r else y :: insertLe le x r

def sortLe {α : Type} (le : α → α → Bool) : List α → List α
  | [] => []
  | x :: r => insertLe le x (sortLe le r)

/-- `.sort((a, b) => new Date(a.timestamp) - new Date(b.timestamp))`. -/
def sortActivities (acts : List Activity) : List Activity :=
  sortLe (fun a b => decide (a.timestamp.ms ≤ b.timestamp.ms)) acts

/-- One per-day bucket of `ChartHelpers.groupActivitiesByDay`. -/
structure DayGroup where
  dayIdx : Int
  date : String
  xp : Int
  count : Int
  totalPossible : Int
  totalEarned : Int
  courses : List String
  courseTransition : Bool := false
  transitionFrom : String := ""
  transitionTo : String := ""
deriving DecidableEq, Repr

/-- Fold one activity into its bucket: XP, count, course set, and the
diagnostic-aware earned/possible totals (`possibleXP = activity.base || 10`
for non-diagnostics). -/
def updGroup (a : Activity) (g : DayGroup) : DayGroup :=
  { g with
    xp := g.xp + a.earned
    count := g.count + 1
    courses :=
      if a.course ≠ "" ∧ a.course ∉ g.courses then g.courses ++ [a.course]
      else g.courses
    totalPossible := g.totalPossible +
      (if isDiagnosticA a then a.earned else if a.base = 0 then 10 else a.base)
    totalEarned := g.totalEarned + a.earned }

def emptyGroup (day : Int) : DayGroup :=
  { dayIdx := day, date := toLocalDateString day, xp := 0, count := 0,
    totalPossible := 0, totalEarned := 0, courses := [] }

def addToGroups (gs : List DayGroup) (a : Activity) : List DayGroup :=
  let key := a.timestamp.day
  if gs.any (fun g => g.dayIdx == key) then
    gs.map (fun g => if g.dayIdx == key then updGroup a g else g)
  else gs ++ [updGroup a (emptyGroup key)]

/-- The transition-detection walk over the sorted buckets: a day's first
course is compared with the first course of the nearest preceding day
that recorded a course. -/
def markTransitions (prev : Option String) : List DayGroup → List DayGroup
  | [] => []
  | g :: rest =>
    match g.courses with
    | [] => { g with courseTransition := false } :: markTransitions prev rest
    | c :: _ =>
      let g2 :=
        match prev with
        | some p =>
          if c ≠ p then
            { g with courseTransition := true, transitionFrom := p, transitionTo := c }
          else { g with courseTransition := false }
        | none => { g with courseTransition := false }
      g2 :: markTransitions (some c) rest

/-- `ChartHelpers.groupActivitiesByDay`: bucket by local day, sort the
buckets ascending by date, then mark course transitions. -/
def groupActivitiesByDay (acts : List Activity) : List DayGroup :=
  markTransitions none
    (sortLe (fun g h => decide (g.dayIdx ≤ h.dayIdx)) (acts.foldl addToGroups []))

/-- A chart series: `transitions` is `[]` for the week-view functions,
which return no `transitions` field. -/
structure TimeSeries where
  labels : List String
  values : List Int
  transitions : List (String × String × String) := []
deriving DecidableEq, Repr

/-- The sparse transition lookup each series function builds from the
day buckets. -/
def buildTransitionLookup (days : List DayGroup) : List (String × String × String) :=
  (days.filter (fun d => d.courseTransition)).map
    (fun d => (d.date, d.transitionFrom, d.transitionTo))

/-- `ChartHelpers.daysBetween`. -/
def daysBetween (date1 date2 : Int) : Int := ((date1 - date2).natAbs : Int)

/-- The `while (currentDate <= lastDate)` day iteration. -/
def seriesDays (f l : Int) : List Int :=
  if l < f then [] else (List.range ((l - f).toNat + 1)).map fun i => f + Int.ofNat i

/-- The daily value looked up in a date-keyed object, 0 when absent
(`dailyXPLookup[dateKey] || 0`). -/
def lookupOr (dflt : Int) (lookup : List (String × Int)) (key : String) : Int :=
  ((lookup.find? (fun p => p.1 == key)).map (fun p => p.2)).getD dflt

/-- The cumulative loop: per day, look up the daily value (0 when
absent) and push the running total. -/
def cumFold (lookup : List (String × Int)) (cum : Int) : List Int → List (String × Int)
  | [] => []
  | d :: rest =>
    let key := toLocalDateString d
    let dayV := lookupOr 0 lookup key
    (key, cum + dayV) :: cumFold lookup (cum + dayV) rest

/-- `ChartHelpers.getCumulativeXPData`. -/
def getCumulativeXPData (acts : List Activity) : TimeSeries :=
  if acts.isEmpty then
    { labels := ["Day 1", "Day 2", "Day 3"], values := [5, 12, 20] }
  else
    let dailyData := groupActivitiesByDay (sortActivities acts)
    let f := ((dailyData.head?).map (fun g => g.dayIdx)).getD 0
    let l := ((dailyData.getLast?).map (fun g => g.dayIdx)).getD 0
    let lookup := dailyData.map fun g => (g.date, g.xp)
    let data := cumFold lookup 0 (seriesDays f l)
    { labels := data.map (fun p => p.1)
      values := data.map (fun p => p.2)
      transitions := buildTransitionLookup dailyData }

/-- `ChartHelpers.getCumulativeActivitiesData`. -/
def getCumulativeActivitiesData (acts : List Activity) : TimeSeries :=
  if acts.isEmpty then
    { labels := ["Day 1", "Day 2"], values := [1, 2] }
  else
    let dailyData := groupActivitiesByDay (sortActivities acts)
    let f := ((dailyData.head?).map (fun g => g.dayIdx)).getD 0
    let l := ((dailyData.getLast?).map (fun g => g.dayIdx)).getD 0
    let lookup := dailyData.map fun g => (g.date, g.count)
    let data := cumFold lookup 0 (seriesDays f l)
    { labels := data.map (fun p => p.1)
      values := data.map (fun p => p.2)
      transitions := buildTransitionLookup dailyData }

/-- `ChartHelpers.getAvgXPOverTimeData`: 7-day trailing rolling average
of daily XP, evaluated at each active day. -/
def getAvgXPOverTimeData (acts : List Activity) : TimeSeries :=
  if acts.isEmpty then
    { labels := ["Week 1", "Week 2"], values := [110, 112] }
  else
    let dailyData := groupActivitiesByDay (sortActivities acts)
    let data := (List.range dailyData.length).map fun i =>
      let window := (dailyData.take (i + 1)).drop (i - 6)
      let totalXP : Int := window.foldl (fun sum day => sum + day.xp) 0
      (((dailyData.get? i).map (fun g => g.date)).getD "",
        jsRoundDiv totalXP (window.length : Int))
    { labels := data.map (fun p => p.1)
      values := data.map (fun p => p.2)
      transitions := buildTransitionLookup dailyData }

/-- `ChartHelpers.getSuccessRateOverTimeData`: 7-day trailing rolling
attainment rate, uncapped above 100. -/
def getSuccessRateOverTimeData (acts : List Activity) : TimeSeries :=
  if acts.isEmpty then
    { labels := ["Month 1", "Month 2"], values := [70, 80] }
  else
    let dailyData := groupActivitiesByDay (sortActivities acts)
    let data := (List.range dailyData.length).map fun i =>
      let window := (dailyData.take (i + 1)).drop (i - 6)
      let totalEarned : Int := window.foldl (fun sum day => sum + day.totalEarned) 0
      let totalPossible : Int := window.foldl (fun sum day => sum + day.totalPossible) 0
      (((dailyData.get? i).map (fun g => g.date)).getD "",
        if 0 < totalPossible then jsRoundDiv (totalEarned * 100) totalPossible
        else 0)
    { labels := data.map (fun p => p.1)
      values := data.map (fun p => p.2)
      transitions := buildTransitionLookup dailyData }

/-- The fixed week-view range: today minus 6 through today. -/
def weekDays (today : Int) : List Int :=
  (List.range 7).map fun j => today - 6 + Int.ofNat j

/-- `ChartHelpers.getDailyXPData` (week view, non-cumulative). -/
def getDailyXPData (today : Int) (acts : List Activity) : TimeSeries :=
  if acts.isEmpty then { labels := [], values := [] }
  else
    let dailyData := groupActivitiesByDay (sortActivities acts)
    let lookup := dailyData.map fun g => (g.date, g.xp)
    { labels := (weekDays today).map toLocalDateString
      values := (weekDays today).map fun d => lookupOr 0 lookup (toLocalDateString d) }

/-- `ChartHelpers.getWeeklyCumulativeXPData` (week view, cumulative). -/
def getWeeklyCumulativeXPData (today : Int) (acts : List Activity) : TimeSeries :=
  if acts.isEmpty then { labels := [], values := [] }
  else
    let dailyData := groupActivitiesByDay (sortActivities acts)
    let lookup := dailyData.map fun g => (g.date, g.xp)
    let data := cumFold lookup 0 (weekDays today)
    { labels := data.map (fun p => p.1), values := data.map (fun p => p.2) }

/-- `ChartHelpers.getDailyActivitiesData` (week view, non-cumulative). -/
def getDailyActivitiesData (today : Int) (acts : List Activity) : TimeSeries :=
  if acts.isEmpty then { labels := [], values := [] }
  else
    let dailyData := groupActivitiesByDay (sortActivities acts)
    let lookup := dailyData.map fun g => (g.date, g.count)
    { labels := (weekDays today).map toLocalDateString
      values := (weekDays today).map fun d => lookupOr 0 lookup (toLocalDateString d) }

/-- `ChartHelpers.getWeeklyCumulativeActivitiesData` (week view,
cumulative). -/
def getWeeklyCumulativeActivitiesData (today : Int) (acts : List Activity) : TimeSeries :=
  if acts.isEmpty then { labels := [], values := [] }
  else
    let dailyData := groupActivitiesByDay (sortActivities acts)
    let lookup := dailyData.map fun g => (g.date, g.count)
    let data := cumFold lookup 0 (weekDays today)
    { labels := data.map (fun p => p.1), values := data.map (fun p => p.2) }

/-- `ChartHelpers.getDailyAttainmentData` (week view): days with no
recorded attainment display as 100. -/
def getDailyAttainmentData (today : Int) (acts : List Activity) : TimeSeries :=
  if acts.isEmpty then { labels := [], values := [] }
  else
    let dailyData := groupActivitiesByDay (sortActivities acts)
    let lookup := (dailyData.filter (fun g => decide (0 < g.totalPossible))).map
      fun g => (g.date, jsRoundDiv (g.totalEarned * 100) g.totalPossible)
    { labels := (weekDays today).map toLocalDateString
      values := (weekDays today).map fun d => lookupOr 100 lookup (toLocalDateString d) }

/-! ### Statement-side definitions -/

/-- The two scenario input texts used by concrete claims. -/
def scenarioAText : String :=
  "Mon, Jan 5th, 2026 Mathematical Foundations I Lesson Intro to Limits 8 / 10 XP"

def placementZeroText : String :=
  "Mon, Jan 5th, 2026 Mathematical Foundations I Placement 0 / XP"

/-- Total earned XP over a record list (the claim's `totalEarned`). -/
def earnSum (data : List Activity) : Int :=
  (data.map (fun a => a.earned)).sum

/-- Total possible XP as the statistics calculator accumulates it:
`possible = earned` for diagnostics, else `base` (no default). -/
def possSum (data : List Activity) : Int :=
  (data.map (fun a => if isDiagnosticA a then a.earned else a.base)).sum

/-- Total possible XP as claim C2 words it: the daily aggregator's
substitution rule, `possible = earned` for diagnostics, else
`base || 10`. -/
def specPossSum (data : List Activity) : Int :=
  (data.map (fun a =>
    if isDiagnosticA a then a.earned else if a.base = 0 then 10 else a.base)).sum

/-- The success rate claim C2 asserts for the snapshot: rounded to one
decimal over `earnSum`/`specPossSum`. -/
def specSuccessRateC2 (data : List Activity) : ℚ :=
  (jsRound ((earnSum data : ℚ) / (specPossSum data : ℚ) * 100 * 10) : ℚ) / 10

/-- The closed taxonomy of claim C9. -/
def closedTypeSet : List String :=
  ["diagnostic", "lesson", "review", "quiz", "multistep"]

/-- First calendar day carrying an activity (minimum timestamp day). -/
def firstActiveDay : List Activity → Int
  | [] => 0
  | a :: r => (r.map (fun b => b.timestamp.day)).foldl min a.timestamp.day

/-- Last calendar day carrying an activity (maximum timestamp day). -/
def lastActiveDay : List Activity → Int
  | [] => 0
  | a :: r => (r.map (fun b => b.timestamp.day)).foldl max a.timestamp.day

/-- A record with an "Assessment" raw type whose quiz-ness is only in its
title, as the source data logs quizzes (claim C1). -/
def assessmentQuizTitled : Activity :=
  { timestamp := ⟨0, 0⟩, type := "Assessment", title := "Unit 3 Quiz",
    earned := 10, base := 10 }

/-- A non-diagnostic record whose `base` is unset (falsy 0), claim C2's
counterexample input. -/
def lessonNoBase : Activity :=
  { timestamp := ⟨0, 0⟩, type := "lesson", earned := 5, base := 0 }

/-- A non-diagnostic record earning more than its base (for the
unclamped-rate conjunct of claim C2). -/
def lessonOverBase : Activity :=
  { timestamp := ⟨0, 0⟩, type := "lesson", earned := 15, base := 10 }

/-! ### Helper lemmas -/

lemma jsRoundDiv_eq (n d : Int) (hd : 0 < d) :
    jsRoundDiv n d = jsRound ((n : ℚ) / (d : ℚ)) := by
  unfold jsRoundDiv jsRound
  rw [Int.fdiv_eq_ediv _ (by omega)]
  have hd2 : (0 : ℤ) < 2 * d := by omega
  have hcast : ((2 * d).toNat : ℚ) = ((2 * d : ℤ) : ℚ) := by
    rw [← Int.cast_natCast, Int.toNat_of_nonneg (by omega)]
  have harg : ((2 * n + d : ℤ) : ℚ) / (((2 * d).toNat : ℕ) : ℚ) =
      (n : ℚ) / (d : ℚ) + 1 / 2 := by
    rw [hcast]
    have hdq : ((d : ℤ) : ℚ) ≠ 0 := by
      exact_mod_cast (by omega : (d : ℤ) ≠ 0)
    push_cast
    field_simp
    ring
  have hfl := Rat.floor_intCast_div_natCast (2 * n + d) (2 * d).toNat
  rw [harg] at hfl
  rw [hfl, Int.toNat_of_nonneg (by omega : (0 : ℤ) ≤ 2 * d)]

lemma succStep_sum (acc : Nat × Nat × Nat) (a : Activity) :
    (succStep acc a).1 + (succStep acc a).2.1 + (succStep acc a).2.2 =
      acc.1 + acc.2.1 + acc.2.2 + 1 := by
  unfold succStep
  split_ifs <;> (simp; omega)

lemma foldl_succStep (l : List Activity) :
    ∀ acc : Nat × Nat × Nat,
      (l.foldl succStep acc).1 + (l.foldl succStep acc).2.1 +
          (l.foldl succStep acc).2.2 =
        acc.1 + acc.2.1 + acc.2.2 + l.length := by
  induction l with
  | nil => intro acc; simp
  | cons a t ih =>
    intro acc
    rw [List.foldl_cons, ih, succStep_sum]
    simp [List.length_cons]
    omega

lemma attainStep_eq (acc : Int × Int) (a : Activity) :
    attainStep acc a =
      (acc.1 + a.earned, acc.2 + (if isDiagnosticA a then a.earned else a.base)) := by
  unfold attainStep
  split_ifs <;> rfl

lemma foldl_attainStep (l : List Activity) :
    ∀ acc : Int × Int,
      l.foldl attainStep acc = (acc.1 + earnSum l, acc.2 + possSum l) := by
  induction l with
  | nil => intro acc; simp [earnSum, possSum]
  | cons a t ih =>
    intro acc
    rw [List.foldl_cons, ih, attainStep_eq]
    simp [earnSum, possSum]
    constructor <;> ring

/-! ### Claims -/

/-- C1 (code here diverges from the claim): the classification used for
category counts reads `activity.taskName`, which no producer sets, so a
record with raw type "Assessment" whose title contains "Quiz" is counted
under `diagnostics`, not `quizzes` — the quiz-title override never
fires for records carrying the quiz marker in `title`. -/
theorem counts_read_taskName_not_title :
    calculateActivityCounts [assessmentQuizTitled] =
        { diagnostics := 1, lessons := 0, reviews := 0, multisteps := 0, quizzes := 0 } ∧
      containsQuiz assessmentQuizTitled.title = true ∧
      assessmentQuizTitled.taskName = "" := by
  exact ⟨by decide, by decide, rfl⟩

/-- C2 counterexample: for a non-diagnostic record with unset (falsy 0)
`base`, the snapshot's `successRate` is 0, while the claimed formula —
totals accumulated with the daily aggregator's `base || 10`
substitution — yields 50.  The snapshot does not apply the default-10
rule. -/
theorem successRate_default_base_counterexample :
    (calculateSuccessMetrics [lessonNoBase]).successRate = 0 ∧
      specSuccessRateC2 [lessonNoBase] = 50 ∧ (0 : ℚ) ≠ 50 := by
  refine ⟨rfl, ?_, by norm_num⟩
  have hd : isDiagnosticA lessonNoBase = false := rfl
  have he : earnSum [lessonNoBase] = 5 := rfl
  have hp : specPossSum [lessonNoBase] = 10 := rfl
  unfold specSuccessRateC2
  rw [he, hp]
  have harg : ((5 : ℤ) : ℚ) / ((10 : ℤ) : ℚ) * 100 * 10 = 500 := by norm_num
  rw [harg]
  have : jsRound 500 = 500 := by
    unfold jsRound
    rw [Int.floor_eq_iff]
    norm_num
  rw [this]
  norm_num

/-- C2 (amended): the snapshot's `successRate` is
`round(totalEarned/totalPossible*100, 1 decimal)` with
`possible = earned` for diagnostics and `possible = base` (no default-10
substitution — that rule lives only in the daily aggregator) otherwise,
0 when `totalPossible ≤ 0`; the value is not clamped at 100, as the
second conjunct's 150 % rate shows. -/
theorem successRate_closed_form :
    (∀ data : List Activity,
        (calculateSuccessMetrics data).successRate =
          if 0 < possSum data then
            (jsRound ((earnSum data : ℚ) / (possSum data : ℚ) * 100 * 10) : ℚ) / 10
          else 0) ∧
      (calculateSuccessMetrics [lessonOverBase]).successRate = 150 := by
  constructor
  · intro data
    have ht := foldl_attainStep data (0, 0)
    simp only [zero_add] at ht
    show (if 0 < (data.foldl attainStep (0, 0)).2 then
        (jsRoundDiv ((data.foldl attainStep (0, 0)).1 * 1000)
            (data.foldl attainStep (0, 0)).2 : ℚ) / 10
      else 0) = _
    rw [ht]
    by_cases hp : 0 < possSum data
    · simp only [hp, if_true]
      rw [jsRoundDiv_eq _ _ hp]
      have harg : ((earnSum data * 1000 : ℤ) : ℚ) / (possSum data : ℚ) =
          (earnSum data : ℚ) / (possSum data : ℚ) * 100 * 10 := by
        push_cast
        ring
      rw [harg]
    · simp only [hp, if_false]
  · have h5 : (calculateSuccessMetrics [lessonOverBase]).successRate =
        (jsRoundDiv 15000 10 : ℚ) / 10 := rfl
    rw [h5, show jsRoundDiv 15000 10 = 1500 from by decide]
    norm_num

/-- C3: every activity falls into exactly one of the three success
classes, so the three counters partition the activity count. -/
theorem success_counts_partition (data : List Activity) :
    (calculateSuccessMetrics data).perfectCount +
        (calculateSuccessMetrics data).passCount +
        (calculateSuccessMetrics data).failCount = data.length := by
  have h := foldl_succStep data (0, 0, 0)
  simpa [calculateSuccessMetrics] using h

/-- C3 witness: the partition at a concrete three-record input. -/
theorem success_counts_partition_witness :
    (calculateSuccessMetrics [lessonNoBase, lessonOverBase, assessmentQuizTitled]).perfectCount +
        (calculateSuccessMetrics [lessonNoBase, lessonOverBase, assessmentQuizTitled]).passCount +
        (calculateSuccessMetrics [lessonNoBase, lessonOverBase, assessmentQuizTitled]).failCount = 3 :=
  success_counts_partition [lessonNoBase, lessonOverBase, assessmentQuizTitled]

/-- C6: Scenario A — the single header plus one graded line parses to
exactly one lesson activity with earned 8 of 10, percentage 80,
isSuccess, dated 2026-01-05. -/
theorem scenarioA_parse : ∀ now : Timestamp,
    (parseActivities now scenarioAText).map
        (fun a => (a.type, a.earned, a.base, a.percentage, a.isSuccess, a.timestamp.day)) =
      [("lesson", 8, 10, 80, true, daysFromCivil 2026 1 5)] ∧
    (parseActivities now scenarioAText).length = 1 := by
  intro now
  constructor <;> rfl

/-- C7: the empty input parses to the empty sequence, and the snapshot
of an empty sequence is the documented zero-valued snapshot: zero
success rate, zero counters, empty maps and series. -/
theorem empty_input_zero_stats : ∀ (now : Timestamp) (today : Int),
    parseActivities now "" = [] ∧
    calculateStats today [] = getEmptyStats ∧
    getEmptyStats.successMetrics.successRate = 0 ∧
    getEmptyStats.successMetrics.perfectCount = 0 ∧
    getEmptyStats.successMetrics.passCount = 0 ∧
    getEmptyStats.successMetrics.failCount = 0 ∧
    getEmptyStats.totalXP = 0 ∧
    getEmptyStats.totalActivities = 0 ∧
    getEmptyStats.activityCounts =
      { diagnostics := 0, lessons := 0, reviews := 0, multisteps := 0, quizzes := 0 } ∧
    getEmptyStats.dailyStats = [] ∧
    getEmptyStats.last14Days = [] := by
  intro now today
  exact ⟨rfl, rfl, rfl, rfl, rfl, rfl, rfl, rfl, rfl, rfl, rfl⟩

/-- Every graded-pass record's type comes out of the normalizer. -/
lemma mkGraded_type (now : Timestamp) (dateStr : String)
    (m : Nat × List Char × List String) :
    (mkGraded now dateStr m).type = normalizeActivityType ((m.2.2.get? 1).getD "") := rfl

lemma mkDiag_type (now : Timestamp) (dateStr : String)
    (m : Nat × List Char × List String) :
    (mkDiag now dateStr m).type = "diagnostic" := rfl

lemma normalizeActivityType_mem (s : String) :
    normalizeActivityType s ∈ closedTypeSet := by
  simp only [normalizeActivityType]
  split_ifs <;> decide

/-- C9: the parser's taxonomy is closed — the normalizer maps every raw
token (including the empty one) into the five-type set, and every
activity `parseActivities` emits carries a type from that set. -/
theorem parse_type_closed_taxonomy :
    (∀ s : String, normalizeActivityType s ∈ closedTypeSet) ∧
      ∀ (now : Timestamp) (text : String), ∀ a ∈ parseActivities now text,
        a.type ∈ closedTypeSet := by
  refine ⟨normalizeActivityType_mem, ?_⟩
  intro now text a ha
  simp only [parseActivities, List.mem_filter] at ha
  obtain ⟨hmem, -⟩ := ha
  rw [List.mem_flatMap] at hmem
  obtain ⟨s, -, hsec⟩ := hmem
  by_cases h10 : 10 < s.2.length
  · simp only [h10, if_true] at hsec
    unfold parseActivitySection gradedPass diagPass at hsec
    rw [List.mem_append] at hsec
    rcases hsec with hg | hd
    · rw [List.mem_map] at hg
      obtain ⟨m, -, rfl⟩ := hg
      rw [mkGraded_type]
      exact normalizeActivityType_mem _
    · rw [List.mem_map] at hd
      obtain ⟨m, -, rfl⟩ := hd
      rw [mkDiag_type]
      unfold closedTypeSet
      simp
  · simp only [h10, if_false] at hsec
    exact absurd hsec (List.not_mem_nil a)

/-- C9 witness: the taxonomy membership applied to the Scenario A parse
output. -/
theorem parse_type_closed_taxonomy_witness :
    (normalizeActivityType "Assessment" ∈ closedTypeSet) ∧
      ((parseActivities ⟨0, 0⟩ scenarioAText).head?.map
          (fun a => a.type)).getD "" ∈ closedTypeSet := by
  constructor
  · exact parse_type_closed_taxonomy.1 "Assessment"
  · have hmem : ((parseActivities ⟨0, 0⟩ scenarioAText).head?.getD
        { timestamp := ⟨0, 0⟩, type := "" }) ∈ parseActivities ⟨0, 0⟩ scenarioAText := by
      decide
    have h := parse_type_closed_taxonomy.2 ⟨0, 0⟩ scenarioAText _ hmem
    revert h
    decide

/-- C10: every diagnostic-pass activity gets full credit —
`earned = base > 0`, `percentage = 100`, `isSuccess` — and a matched
line whose XP number is 0 yields `earned = base = 63`, because
`parseInt(x) || 63` substitutes the default for the falsy 0 as well. -/
theorem diagnostic_pass_full_credit :
    (∀ (now : Timestamp) (dateStr sec : String), ∀ a ∈ diagPass now dateStr sec,
        a.earned = a.base ∧ 0 < a.earned ∧ a.percentage = 100 ∧ a.isSuccess = true) ∧
      ∀ now : Timestamp,
        (parseActivities now placementZeroText).map
            (fun a => (a.type, a.earned, a.base, a.percentage, a.isSuccess)) =
          [("diagnostic", 63, 63, 100, true)] := by
  constructor
  · intro now dateStr sec a ha
    unfold diagPass at ha
    rw [List.mem_map] at ha
    obtain ⟨m, -, rfl⟩ := ha
    refine ⟨rfl, ?_, rfl, rfl⟩
    show (0 : ℤ) <
      (if digitsToNat (((m.2.2.get? 2).getD "").data) = 0 then 63
       else (digitsToNat (((m.2.2.get? 2).getD "").data) : ℤ))
    split_ifs with h
    · omega
    · exact_mod_cast Nat.pos_of_ne_zero h
  · intro now
    rfl

/-- C10 witness: the full-credit facts instantiated on the zero-XP
placement line, whose parsed record carries 63/63. -/
theorem diagnostic_pass_full_credit_witness :
    ∃ a ∈ diagPass ⟨0, 0⟩ "Mon, Jan 5th, 2026"
        " Mathematical Foundations I Placement 0 / XP",
      a.earned = a.base ∧ 0 < a.earned ∧ a.percentage = 100 ∧ a.isSuccess = true := by
  have hmem : ((diagPass ⟨0, 0⟩ "Mon, Jan 5th, 2026"
      " Mathematical Foundations I Placement 0 / XP").head?.getD
        { timestamp := ⟨0, 0⟩, type := "" }) ∈
      diagPass ⟨0, 0⟩ "Mon, Jan 5th, 2026"
        " Mathematical Foundations I Placement 0 / XP" := by
    decide
  exact ⟨_, hmem, diagnostic_pass_full_credit.1 _ _ _ _ hmem⟩

/-! ### Sorting and grouping lemmas -/

lemma insertLe_perm {α : Type} (le : α → α → Bool) (x : α) :
    ∀ l : List α, (insertLe le x l).Perm (x :: l) := by
  intro l
  induction l with
  | nil => simp [insertLe]
  | cons y r ih =>
    unfold insertLe
    split_ifs
    · exact List.Perm.refl _
    · exact ((ih.cons y).trans (List.Perm.swap x y r))

lemma sortLe_perm {α : Type} (le : α → α → Bool) :
    ∀ l : List α, (sortLe le l).Perm l := by
  intro l
  induction l with
  | nil => simp [sortLe]
  | cons x r ih =>
    unfold sortLe
    exact (insertLe_perm le x (sortLe le r)).trans (ih.cons x)

lemma insertLe_sorted_key {α : Type} (f : α → Int) (x : α) :
    ∀ l : List α, l.Pairwise (fun a b => f a ≤ f b) →
      (insertLe (fun a b => decide (f a ≤ f b)) x l).Pairwise (fun a b => f a ≤ f b) := by
  intro l
  induction l with
  | nil => intro _; simp [insertLe]
  | cons y r ih =>
    intro hl
    rw [List.pairwise_cons] at hl
    obtain ⟨hy, hr⟩ := hl
    unfold insertLe
    split_ifs with hxy
    · rw [decide_eq_true_iff] at hxy
      rw [List.pairwise_cons]
      refine ⟨?_, List.pairwise_cons.mpr ⟨hy, hr⟩⟩
      intro b hb
      rcases List.mem_cons.mp hb with rfl | hbr
      · exact hxy
      · exact le_trans hxy (hy b hbr)
    · rw [decide_eq_true_iff] at hxy
      rw [List.pairwise_cons]
      constructor
      · intro b hb
        have hb2 : b ∈ x :: r := (insertLe_perm _ x r).mem_iff.mp hb
        rcases List.mem_cons.mp hb2 with rfl | hbr
        · omega
        · exact hy b hbr
      · exact ih hr

lemma sortLe_sorted_key {α : Type} (f : α → Int) :
    ∀ l : List α,
      (sortLe (fun a b => decide (f a ≤ f b)) l).Pairwise (fun a b => f a ≤ f b) := by
  intro l
  induction l with
  | nil => simp [sortLe]
  | cons x r ih =>
    unfold sortLe
    exact insertLe_sorted_key f x _ ih

/-- The transition-marking pass only writes the transition fields; every
other component of every bucket is preserved, position by position. -/
lemma markTransitions_strip : ∀ (p : Option String) (l : List DayGroup),
    (markTransitions p l).map
        (fun g => (g.dayIdx, g.date, g.xp, g.count, g.totalEarned, g.totalPossible, g.courses)) =
      l.map
        (fun g => (g.dayIdx, g.date, g.xp, g.count, g.totalEarned, g.totalPossible, g.courses)) := by
  intro p l
  induction l generalizing p with
  | nil => rfl
  | cons g rest ih =>
    unfold markTransitions
    cases hc : g.courses with
    | nil => simp [ih, hc]
    | cons c cs =>
      cases p with
      | none => simp [ih, hc]
      | some q =>
        by_cases hq : c ≠ q <;> simp [hq, ih, hc]

lemma markTransitions_dayIdx (p : Option String) (l : List DayGroup) :
    (markTransitions p l).map (fun g => g.dayIdx) = l.map (fun g => g.dayIdx) := by
  have h := congrArg (List.map (fun x : Int × String × Int × Int × Int × Int × List String => x.1))
    (markTransitions_strip p l)
  simpa [List.map_map, Function.comp] using h

lemma markTransitions_length (p : Option String) (l : List DayGroup) :
    (markTransitions p l).length = l.length := by
  have h := congrArg List.length (markTransitions_strip p l)
  simpa [List.length_map] using h

/-- Membership transfer through the marking pass: any bucket of the
output shares its non-transition fields with some input bucket. -/
lemma markTransitions_mem (p : Option String) (l : List DayGroup) (g : DayGroup)
    (hg : g ∈ markTransitions p l) :
    ∃ g2 ∈ l, g2.dayIdx = g.dayIdx ∧ g2.date = g.date ∧ g2.xp = g.xp ∧
      g2.count = g.count ∧ g2.totalEarned = g.totalEarned ∧
      g2.totalPossible = g.totalPossible := by
  have hmem : (g.dayIdx, g.date, g.xp, g.count, g.totalEarned, g.totalPossible, g.courses) ∈
      l.map (fun g => (g.dayIdx, g.date, g.xp, g.count, g.totalEarned, g.totalPossible, g.courses)) := by
    rw [← markTransitions_strip p l]
    exact List.mem_map.mpr ⟨g, hg, rfl⟩
  obtain ⟨g2, hg2, heq⟩ := List.mem_map.mp hmem
  refine ⟨g2, hg2, ?_⟩
  have h1 := congrArg (fun x : Int × String × Int × Int × Int × Int × List String => x.1) heq
  have h2 := congrArg (fun x : Int × String × Int × Int × Int × Int × List String => x.2.1) heq
  have h3 := congrArg (fun x : Int × String × Int × Int × Int × Int × List String => x.2.2.1) heq
  have h4 := congrArg (fun x : Int × String × Int × Int × Int × Int × List String => x.2.2.2.1) heq
  have h5 := congrArg (fun x : Int × String × Int × Int × Int × Int × List String => x.2.2.2.2.1) heq
  have h6 := congrArg (fun x : Int × String × Int × Int × Int × Int × List String => x.2.2.2.2.2.1) heq
  exact ⟨h1, h2, h3, h4, h5, h6⟩

lemma updGroup_dayIdx (a : Activity) (g : DayGroup) :
    (updGroup a g).dayIdx = g.dayIdx := rfl

lemma mem_addToGroups_days (gs : List DayGroup) (a : Activity) (k : Int) :
    k ∈ (addToGroups gs a).map (fun g => g.dayIdx) ↔
      k ∈ gs.map (fun g => g.dayIdx) ∨ k = a.timestamp.day := by
  simp only [addToGroups]
  by_cases h : gs.any (fun g => g.dayIdx == a.timestamp.day)
  · rw [if_pos h]
    have hmap : (gs.map (fun g => if g.dayIdx == a.timestamp.day then updGroup a g else g)).map
        (fun g => g.dayIdx) = gs.map (fun g => g.dayIdx) := by
      rw [List.map_map]
      apply List.map_congr_left
      intro g _
      simp only [Function.comp]
      split_ifs <;> rfl
    rw [hmap]
    constructor
    · exact Or.inl
    · rintro (hk | rfl)
      · exact hk
      · rw [List.any_eq_true] at h
        obtain ⟨g, hg, hgk⟩ := h
        rw [beq_iff_eq] at hgk
        exact List.mem_map.mpr ⟨g, hg, hgk⟩
  · rw [if_neg h]
    rw [List.map_append, List.mem_append]
    simp [updGroup, emptyGroup]

lemma mem_foldGroups_days (acts : List Activity) :
    ∀ (gs : List DayGroup) (k : Int),
      k ∈ ((acts.foldl addToGroups gs).map (fun g => g.dayIdx)) ↔
        k ∈ gs.map (fun g => g.dayIdx) ∨ k ∈ acts.map (fun a => a.timestamp.day) := by
  induction acts with
  | nil => simp
  | cons a t ih =>
    intro gs k
    rw [List.foldl_cons, ih, mem_addToGroups_days]
    simp only [List.map_cons, List.mem_cons]
    tauto

/-- Bucket-level invariant preserved by one grouping step: any
activity-wise nonnegative quantity keeps every bucket's `xp` and `count`
nonnegative. -/
lemma addToGroups_nonneg (gs : List DayGroup) (a : Activity)
    (ha : 0 ≤ a.earned) (hgs : ∀ g ∈ gs, 0 ≤ g.xp ∧ 0 ≤ g.count) :
    ∀ g ∈ addToGroups gs a, 0 ≤ g.xp ∧ 0 ≤ g.count := by
  intro g hg
  simp only [addToGroups] at hg
  split_ifs at hg with h
  · obtain ⟨g2, hg2, rfl⟩ := List.mem_map.mp hg
    split_ifs with hk
    · have := hgs g2 hg2
      simp only [updGroup]
      constructor <;> [omega; omega]
    · exact hgs g2 hg2
  · rw [List.mem_append] at hg
    rcases hg with hg | hg
    · exact hgs g hg
    · rw [List.mem_singleton] at hg
      subst hg
      simp only [updGroup, emptyGroup]
      constructor <;> omega

lemma foldGroups_nonneg (acts : List Activity) :
    ∀ gs : List DayGroup, (∀ a ∈ acts, 0 ≤ a.earned) →
      (∀ g ∈ gs, 0 ≤ g.xp ∧ 0 ≤ g.count) →
      ∀ g ∈ acts.foldl addToGroups gs, 0 ≤ g.xp ∧ 0 ≤ g.count := by
  induction acts with
  | nil => intro gs _ hgs; simpa using hgs
  | cons a t ih =>
    intro gs hacts hgs
    rw [List.foldl_cons]
    exact ih _ (fun b hb => hacts b (List.mem_cons_of_mem a hb))
      (addToGroups_nonneg gs a (hacts a (List.mem_cons_self a t)) hgs)

/-- Every bucket of `groupActivitiesByDay` over activities with
nonnegative `earned` has nonnegative `xp` and `count`. -/
lemma groupActivitiesByDay_nonneg (acts : List Activity)
    (h : ∀ a ∈ acts, 0 ≤ a.earned) :
    ∀ g ∈ groupActivitiesByDay acts, 0 ≤ g.xp ∧ 0 ≤ g.count := by
  intro g hg
  unfold groupActivitiesByDay at hg
  obtain ⟨g2, hg2, -, -, hxp, hcount, -, -⟩ := markTransitions_mem _ _ g hg
  have hg3 : g2 ∈ acts.foldl addToGroups [] :=
    (sortLe_perm _ _).mem_iff.mp hg2
  have := foldGroups_nonneg acts [] h (by simp) g2 hg3
  omega

/-- The day keys of the grouped buckets are exactly the activity days. -/
lemma groupActivitiesByDay_days (acts : List Activity) (k : Int) :
    k ∈ (groupActivitiesByDay acts).map (fun g => g.dayIdx) ↔
      k ∈ acts.map (fun a => a.timestamp.day) := by
  unfold groupActivitiesByDay
  rw [markTransitions_dayIdx]
  rw [((sortLe_perm _ (acts.foldl addToGroups [])).map (fun g => g.dayIdx)).mem_iff]
  rw [mem_foldGroups_days]
  simp

/-- The grouped buckets are sorted ascending by day. -/
lemma groupActivitiesByDay_sorted (acts : List Activity) :
    (groupActivitiesByDay acts).Pairwise (fun a b => a.dayIdx ≤ b.dayIdx) := by
  unfold groupActivitiesByDay
  have h1 : (markTransitions none (sortLe (fun g h => decide (g.dayIdx ≤ h.dayIdx))
      (acts.foldl addToGroups []))).map (fun g => g.dayIdx) =
      (sortLe (fun g h => decide (g.dayIdx ≤ h.dayIdx))
        (acts.foldl addToGroups [])).map (fun g => g.dayIdx) :=
    markTransitions_dayIdx _ _
  have h2 := sortLe_sorted_key (fun g : DayGroup => g.dayIdx) (acts.foldl addToGroups [])
  rw [← List.pairwise_map (f := fun g : DayGroup => g.dayIdx) (R := (· ≤ ·))] at h2 ⊢
  rw [h1]
  exact h2

/-! ### Minimum/maximum day lemmas -/

lemma foldl_min_le_self (l : List Int) : ∀ x : Int, l.foldl min x ≤ x := by
  induction l with
  | nil => intro x; simp
  | cons a t ih =>
    intro x
    rw [List.foldl_cons]
    exact le_trans (ih (min x a)) (min_le_left x a)

lemma foldl_min_le_mem (l : List Int) : ∀ (x d : Int), d ∈ l → l.foldl min x ≤ d := by
  induction l with
  | nil => intro x d hd; simp at hd
  | cons a t ih =>
    intro x d hd
    rw [List.foldl_cons]
    rcases List.mem_cons.mp hd with rfl | hdt
    · exact le_trans (foldl_min_le_self t (min x d)) (min_le_right x d)
    · exact ih _ d hdt

lemma foldl_min_mem (l : List Int) : ∀ x : Int, l.foldl min x = x ∨ l.foldl min x ∈ l := by
  induction l with
  | nil => intro x; simp
  | cons a t ih =>
    intro x
    rw [List.foldl_cons]
    rcases ih (min x a) with h | h
    · rcases min_cases x a with ⟨hm, -⟩ | ⟨hm, -⟩
      · exact Or.inl (by rw [h, hm])
      · exact Or.inr (by rw [h, hm]; exact List.mem_cons_self a t)
    · exact Or.inr (List.mem_cons_of_mem a h)

lemma foldl_max_le_self (l : List Int) : ∀ x : Int, x ≤ l.foldl max x := by
  induction l with
  | nil => intro x; simp
  | cons a t ih =>
    intro x
    rw [List.foldl_cons]
    exact le_trans (le_max_left x a) (ih (max x a))

lemma foldl_max_le_mem (l : List Int) : ∀ (x d : Int), d ∈ l → d ≤ l.foldl max x := by
  induction l with
  | nil => intro x d hd; simp at hd
  | cons a t ih =>
    intro x d hd
    rw [List.foldl_cons]
    rcases List.mem_cons.mp hd with rfl | hdt
    · exact le_trans (le_max_right x d) (foldl_max_le_self t (max x d))
    · exact ih _ d hdt

lemma foldl_max_mem (l : List Int) : ∀ x : Int, l.foldl max x = x ∨ l.foldl max x ∈ l := by
  induction l with
  | nil => intro x; simp
  | cons a t ih =>
    intro x
    rw [List.foldl_cons]
    rcases ih (max x a) with h | h
    · rcases max_cases x a with ⟨hm, -⟩ | ⟨hm, -⟩
      · exact Or.inl (by rw [h, hm])
      · exact Or.inr (by rw [h, hm]; exact List.mem_cons_self a t)
    · exact Or.inr (List.mem_cons_of_mem a h)

lemma firstActiveDay_le (acts : List Activity) (d : Int)
    (hd : d ∈ acts.map (fun a => a.timestamp.day)) : firstActiveDay acts ≤ d := by
  cases acts with
  | nil => simp at hd
  | cons a t =>
    rw [List.map_cons, List.mem_cons] at hd
    show (t.map (fun b => b.timestamp.day)).foldl min a.timestamp.day ≤ d
    rcases hd with rfl | h
    · exact foldl_min_le_self _ _
    · exact foldl_min_le_mem _ _ d h

lemma firstActiveDay_mem (acts : List Activity) (h : acts ≠ []) :
    firstActiveDay acts ∈ acts.map (fun a => a.timestamp.day) := by
  cases acts with
  | nil => exact absurd rfl h
  | cons a t =>
    show (t.map (fun b => b.timestamp.day)).foldl min a.timestamp.day ∈ _
    rw [List.map_cons, List.mem_cons]
    rcases foldl_min_mem (t.map (fun b => b.timestamp.day)) a.timestamp.day with hm | hm
    · exact Or.inl hm
    · exact Or.inr hm

lemma lastActiveDay_le (acts : List Activity) (d : Int)
    (hd : d ∈ acts.map (fun a => a.timestamp.day)) : d ≤ lastActiveDay acts := by
  cases acts with
  | nil => simp at hd
  | cons a t =>
    rw [List.map_cons, List.mem_cons] at hd
    show d ≤ (t.map (fun b => b.timestamp.day)).foldl max a.timestamp.day
    rcases hd with rfl | h
    · exact foldl_max_le_self _ _
    · exact foldl_max_le_mem _ _ d h

lemma lastActiveDay_mem (acts : List Activity) (h : acts ≠ []) :
    lastActiveDay acts ∈ acts.map (fun a => a.timestamp.day) := by
  cases acts with
  | nil => exact absurd rfl h
  | cons a t =>
    show (t.map (fun b => b.timestamp.day)).foldl max a.timestamp.day ∈ _
    rw [List.map_cons, List.mem_cons]
    rcases foldl_max_mem (t.map (fun b => b.timestamp.day)) a.timestamp.day with hm | hm
    · exact Or.inl hm
    · exact Or.inr hm

/-! ### Head/last of sorted bucket lists -/

lemma pairwise_head_le (x : DayGroup) (t : List DayGroup)
    (hp : (x :: t).Pairwise (fun a b => a.dayIdx ≤ b.dayIdx)) :
    ∀ g ∈ x :: t, x.dayIdx ≤ g.dayIdx := by
  intro g hg
  rcases List.mem_cons.mp hg with rfl | hgt
  · exact le_refl _
  · exact (List.pairwise_cons.mp hp).1 g hgt

lemma pairwise_le_getLast (l : List DayGroup)
    (hp : l.Pairwise (fun a b => a.dayIdx ≤ b.dayIdx)) (hne : l ≠ []) :
    ∀ g ∈ l, g.dayIdx ≤ (l.getLast hne).dayIdx := by
  induction l with
  | nil => exact absurd rfl hne
  | cons a t ih =>
    intro g hg
    cases t with
    | nil =>
      rw [List.mem_singleton.mp hg]
      simp
    | cons b u =>
      rw [List.getLast_cons (by simp)]
      rcases List.mem_cons.mp hg with rfl | hgt
      · have hmem := List.getLast_mem (l := b :: u) (by simp)
        exact (List.pairwise_cons.mp hp).1 _ hmem
      · exact ih (List.pairwise_cons.mp hp).2 (by simp) g hgt

/-! ### Cumulative-loop lemmas -/

lemma lookupOr_nonneg (lookup : List (String × Int)) (key : String)
    (h : ∀ p ∈ lookup, 0 ≤ p.2) : 0 ≤ lookupOr 0 lookup key := by
  unfold lookupOr
  cases hfind : lookup.find? (fun p => p.1 == key) with
  | none => exact le_refl 0
  | some p => exact h p (List.mem_of_find?_eq_some hfind)

lemma cumFold_labels (lookup : List (String × Int)) :
    ∀ (days : List Int) (cum : Int),
      (cumFold lookup cum days).map (fun p => p.1) = days.map toLocalDateString := by
  intro days
  induction days with
  | nil => intro cum; rfl
  | cons d rest ih =>
    intro cum
    simp only [cumFold, List.map_cons, ih]

lemma cumFold_chain (lookup : List (String × Int)) (hpos : ∀ p ∈ lookup, 0 ≤ p.2) :
    ∀ (days : List Int) (cum : Int),
      List.Chain (· ≤ ·) cum ((cumFold lookup cum days).map (fun p => p.2)) := by
  intro days
  induction days with
  | nil => intro cum; simp [cumFold]
  | cons d rest ih =>
    intro cum
    simp only [cumFold, List.map_cons]
    rw [List.chain_cons]
    exact ⟨by have := lookupOr_nonneg lookup (toLocalDateString d) hpos; omega, ih _⟩

lemma chain'_of_chain {l : List Int} {a : Int}
    (h : List.Chain (· ≤ ·) a l) : List.Chain' (· ≤ ·) l := by
  induction l generalizing a with
  | nil => simp
  | cons b t ih =>
    rw [List.chain_cons] at h
    cases t with
    | nil => simp
    | cons c u =>
      rw [List.chain'_cons]
      have h2 := h.2
      rw [List.chain_cons] at h2
      exact ⟨h2.1, ih h.2⟩

lemma seriesDays_length (f l : Int) (h : f ≤ l) :
    (seriesDays f l).length = (l - f).toNat + 1 := by
  unfold seriesDays
  rw [if_neg (by omega), List.length_map, List.length_range]

lemma sortActivities_perm (acts : List Activity) : (sortActivities acts).Perm acts :=
  sortLe_perm _ acts

/-- The non-empty branch of `getCumulativeXPData`, with the day buckets
exposed. -/
lemma getCumulativeXPData_nonempty (acts : List Activity) (hne : acts.isEmpty = false)
    (x : DayGroup) (t : List DayGroup)
    (hx : groupActivitiesByDay (sortActivities acts) = x :: t) :
    getCumulativeXPData acts =
      { labels := (cumFold ((x :: t).map fun g => (g.date, g.xp)) 0
          (seriesDays x.dayIdx (((x :: t).getLast (List.cons_ne_nil x t)).dayIdx))).map
            (fun p => p.1)
        values := (cumFold ((x :: t).map fun g => (g.date, g.xp)) 0
          (seriesDays x.dayIdx (((x :: t).getLast (List.cons_ne_nil x t)).dayIdx))).map
            (fun p => p.2)
        transitions := buildTransitionLookup (x :: t) } := by
  unfold getCumulativeXPData
  rw [hne]
  simp only [Bool.false_eq_true, if_false, hx]
  rw [List.getLast?_eq_getLast (x :: t) (List.cons_ne_nil x t)]
  rfl

lemma groupActivitiesByDay_sorted_ne_nil (acts : List Activity) (hne : acts ≠ []) :
    groupActivitiesByDay (sortActivities acts) ≠ [] := by
  intro h0
  have hmem : firstActiveDay acts ∈
      (groupActivitiesByDay (sortActivities acts)).map (fun g => g.dayIdx) := by
    rw [groupActivitiesByDay_days]
    rw [((sortActivities_perm acts).map (fun a => a.timestamp.day)).mem_iff]
    exact firstActiveDay_mem acts hne
  rw [h0] at hmem
  simp at hmem

/-- C4: for any non-empty activity list, the cumulative-XP series labels
are exactly the consecutive calendar days from the first active day to
the last active day (no gaps), and the series length is
`daysBetween(firstActiveDay, lastActiveDay) + 1`. -/
theorem cumulativeXP_labels_contiguous (acts : List Activity) (hne : acts ≠ []) :
    (getCumulativeXPData acts).labels =
        (seriesDays (firstActiveDay acts) (lastActiveDay acts)).map toLocalDateString ∧
      firstActiveDay acts ≤ lastActiveDay acts ∧
      ((getCumulativeXPData acts).labels.length : Int) =
        daysBetween (firstActiveDay acts) (lastActiveDay acts) + 1 := by
  have hempty : acts.isEmpty = false := by
    cases acts with
    | nil => exact absurd rfl hne
    | cons a t => rfl
  obtain ⟨x, t, hx⟩ := List.exists_cons_of_ne_nil (groupActivitiesByDay_sorted_ne_nil acts hne)
  have hchar := getCumulativeXPData_nonempty acts hempty x t hx
  have hdays : ∀ k : Int, k ∈ (x :: t).map (fun g => g.dayIdx) ↔
      k ∈ acts.map (fun a => a.timestamp.day) := by
    intro k
    rw [← hx, groupActivitiesByDay_days]
    exact ((sortActivities_perm acts).map (fun a => a.timestamp.day)).mem_iff
  have hsorted : (x :: t).Pairwise (fun a b => a.dayIdx ≤ b.dayIdx) :=
    hx ▸ groupActivitiesByDay_sorted (sortActivities acts)
  have hfeq : x.dayIdx = firstActiveDay acts := by
    apply le_antisymm
    · obtain ⟨g, hg, hgd⟩ := List.mem_map.mp ((hdays _).mpr (firstActiveDay_mem acts hne))
      rw [← hgd]
      exact pairwise_head_le x t hsorted g hg
    · exact firstActiveDay_le acts _
        ((hdays _).mp (List.mem_map.mpr ⟨x, List.mem_cons_self x t, rfl⟩))
  have hleq : ((x :: t).getLast (List.cons_ne_nil x t)).dayIdx = lastActiveDay acts := by
    apply le_antisymm
    · exact lastActiveDay_le acts _
        ((hdays _).mp (List.mem_map.mpr ⟨_, List.getLast_mem _, rfl⟩))
    · obtain ⟨g, hg, hgd⟩ := List.mem_map.mp ((hdays _).mpr (lastActiveDay_mem acts hne))
      rw [← hgd]
      exact pairwise_le_getLast _ hsorted _ g hg
  have hfl : firstActiveDay acts ≤ lastActiveDay acts :=
    firstActiveDay_le acts _ (lastActiveDay_mem acts hne)
  refine ⟨?_, hfl, ?_⟩
  · rw [hchar]
    show (cumFold _ 0 _).map (fun p => p.1) = _
    rw [cumFold_labels, hfeq, hleq]
  · rw [hchar]
    show (((cumFold _ 0 _).map (fun p => p.1)).length : Int) = _
    rw [cumFold_labels, List.length_map, hfeq, hleq,
      seriesDays_length _ _ hfl]
    unfold daysBetween
    omega

/-- C4 witness: a two-activity input three days apart yields the
three-day contiguous label range. -/
theorem cumulativeXP_labels_contiguous_witness :
    ([({ timestamp := ⟨20458, 0⟩, type := "lesson", earned := 8, base := 10 } : Activity),
      { timestamp := ⟨20460, 0⟩, type := "review", earned := 5, base := 10 }] ≠
        ([] : List Activity)) ∧
      (getCumulativeXPData
        [{ timestamp := ⟨20458, 0⟩, type := "lesson", earned := 8, base := 10 },
         { timestamp := ⟨20460, 0⟩, type := "review", earned := 5, base := 10 }]).labels =
        (seriesDays
          (firstActiveDay
            [{ timestamp := ⟨20458, 0⟩, type := "lesson", earned := 8, base := 10 },
             { timestamp := ⟨20460, 0⟩, type := "review", earned := 5, base := 10 }])
          (lastActiveDay
            [{ timestamp := ⟨20458, 0⟩, type := "lesson", earned := 8, base := 10 },
             { timestamp := ⟨20460, 0⟩, type := "review", earned := 5, base := 10 }])).map
          toLocalDateString :=
  ⟨by decide,
    (cumulativeXP_labels_contiguous
      [{ timestamp := ⟨20458, 0⟩, type := "lesson", earned := 8, base := 10 },
       { timestamp := ⟨20460, 0⟩, type := "review", earned := 5, base := 10 }]
      (by decide)).1⟩

/-- The non-empty branch of `getCumulativeActivitiesData`, with the day
buckets exposed. -/
lemma getCumulativeActivitiesData_nonempty (acts : List Activity)
    (hne : acts.isEmpty = false) (x : DayGroup) (t : List DayGroup)
    (hx : groupActivitiesByDay (sortActivities acts) = x :: t) :
    getCumulativeActivitiesData acts =
      { labels := (cumFold ((x :: t).map fun g => (g.date, g.count)) 0
          (seriesDays x.dayIdx (((x :: t).getLast (List.cons_ne_nil x t)).dayIdx))).map
            (fun p => p.1)
        values := (cumFold ((x :: t).map fun g => (g.date, g.count)) 0
          (seriesDays x.dayIdx (((x :: t).getLast (List.cons_ne_nil x t)).dayIdx))).map
            (fun p => p.2)
        transitions := buildTransitionLookup (x :: t) } := by
  unfold getCumulativeActivitiesData
  rw [hne]
  simp only [Bool.false_eq_true, if_false, hx]
  rw [List.getLast?_eq_getLast (x :: t) (List.cons_ne_nil x t)]
  rfl

/-- C5: when every `earned` is nonnegative, the cumulative XP series and
the cumulative activity-count series are both non-decreasing. -/
theorem cumulative_series_monotone (acts : List Activity)
    (h : ∀ a ∈ acts, 0 ≤ a.earned) :
    List.Chain' (· ≤ ·) (getCumulativeXPData acts).values ∧
      List.Chain' (· ≤ ·) (getCumulativeActivitiesData acts).values := by
  by_cases hne : acts = []
  · subst hne
    constructor
    · show List.Chain' (· ≤ ·) [5, 12, 20]
      norm_num [List.chain'_cons]
    · show List.Chain' (· ≤ ·) [1, 2]
      norm_num [List.chain'_cons]
  · have hempty : acts.isEmpty = false := by
      cases acts with
      | nil => exact absurd rfl hne
      | cons a t => rfl
    obtain ⟨x, t, hx⟩ :=
      List.exists_cons_of_ne_nil (groupActivitiesByDay_sorted_ne_nil acts hne)
    have hnn : ∀ g ∈ x :: t, 0 ≤ g.xp ∧ 0 ≤ g.count := by
      rw [← hx]
      intro g hg
      refine groupActivitiesByDay_nonneg (sortActivities acts) ?_ g hg
      intro a ha
      exact h a ((sortActivities_perm acts).mem_iff.mp ha)
    constructor
    · rw [getCumulativeXPData_nonempty acts hempty x t hx]
      show List.Chain' (· ≤ ·) ((cumFold _ 0 _).map (fun p => p.2))
      refine chain'_of_chain (a := 0) ?_
      refine cumFold_chain _ ?_ _ _
      intro p hp
      obtain ⟨g, hg, rfl⟩ := List.mem_map.mp hp
      exact (hnn g hg).1
    · rw [getCumulativeActivitiesData_nonempty acts hempty x t hx]
      show List.Chain' (· ≤ ·) ((cumFold _ 0 _).map (fun p => p.2))
      refine chain'_of_chain (a := 0) ?_
      refine cumFold_chain _ ?_ _ _
      intro p hp
      obtain ⟨g, hg, rfl⟩ := List.mem_map.mp hp
      exact (hnn g hg).2

/-- C5 witness: monotonicity at a concrete two-day input. -/
theorem cumulative_series_monotone_witness :
    (∀ a ∈ [({ timestamp := ⟨20461, 0⟩, type := "quiz", earned := 12, base := 10 } : Activity),
        { timestamp := ⟨20463, 0⟩, type := "lesson", earned := 0, base := 10 }], 0 ≤ a.earned) ∧
      List.Chain' (· ≤ ·)
        (getCumulativeXPData
          [{ timestamp := ⟨20461, 0⟩, type := "quiz", earned := 12, base := 10 },
           { timestamp := ⟨20463, 0⟩, type := "lesson", earned := 0, base := 10 }]).values ∧
      List.Chain' (· ≤ ·)
        (getCumulativeActivitiesData
          [{ timestamp := ⟨20461, 0⟩, type := "quiz", earned := 12, base := 10 },
           { timestamp := ⟨20463, 0⟩, type := "lesson", earned := 0, base := 10 }]).values :=
  ⟨by decide,
    (cumulative_series_monotone
      [{ timestamp := ⟨20461, 0⟩, type := "quiz", earned := 12, base := 10 },
       { timestamp := ⟨20463, 0⟩, type := "lesson", earned := 0, base := 10 }] (by decide)).1,
    (cumulative_series_monotone
      [{ timestamp := ⟨20461, 0⟩, type := "quiz", earned := 12, base := 10 },
       { timestamp := ⟨20463, 0⟩, type := "lesson", earned := 0, base := 10 }] (by decide)).2⟩

/-- Transition entries come only from buckets flagged with a course
transition. -/
lemma buildTransitionLookup_spec (days : List DayGroup) :
    ∀ p ∈ buildTransitionLookup days, ∃ g ∈ days,
      g.courseTransition = true ∧ p = (g.date, g.transitionFrom, g.transitionTo) := by
  intro p hp
  unfold buildTransitionLookup at hp
  obtain ⟨g, hg, rfl⟩ := List.mem_map.mp hp
  rw [List.mem_filter] at hg
  exact ⟨g, hg.1, hg.2, rfl⟩

lemma len_cumXP (acts : List Activity) :
    (getCumulativeXPData acts).labels.length = (getCumulativeXPData acts).values.length := by
  unfold getCumulativeXPData
  split_ifs <;> simp

lemma len_cumActs (acts : List Activity) :
    (getCumulativeActivitiesData acts).labels.length =
      (getCumulativeActivitiesData acts).values.length := by
  unfold getCumulativeActivitiesData
  split_ifs <;> simp

lemma len_avgXP (acts : List Activity) :
    (getAvgXPOverTimeData acts).labels.length = (getAvgXPOverTimeData acts).values.length := by
  unfold getAvgXPOverTimeData
  split_ifs <;> simp

lemma len_successRate (acts : List Activity) :
    (getSuccessRateOverTimeData acts).labels.length =
      (getSuccessRateOverTimeData acts).values.length := by
  unfold getSuccessRateOverTimeData
  split_ifs <;> simp

lemma len_dailyXP (today : Int) (acts : List Activity) :
    (getDailyXPData today acts).labels.length = (getDailyXPData today acts).values.length := by
  unfold getDailyXPData
  split_ifs <;> simp

lemma len_weeklyCumXP (today : Int) (acts : List Activity) :
    (getWeeklyCumulativeXPData today acts).labels.length =
      (getWeeklyCumulativeXPData today acts).values.length := by
  unfold getWeeklyCumulativeXPData
  split_ifs <;> simp

lemma len_dailyActs (today : Int) (acts : List Activity) :
    (getDailyActivitiesData today acts).labels.length =
      (getDailyActivitiesData today acts).values.length := by
  unfold getDailyActivitiesData
  split_ifs <;> simp

lemma len_weeklyCumActs (today : Int) (acts : List Activity) :
    (getWeeklyCumulativeActivitiesData today acts).labels.length =
      (getWeeklyCumulativeActivitiesData today acts).values.length := by
  unfold getWeeklyCumulativeActivitiesData
  split_ifs <;> simp

lemma len_dailyAttainment (today : Int) (acts : List Activity) :
    (getDailyAttainmentData today acts).labels.length =
      (getDailyAttainmentData today acts).values.length := by
  unfold getDailyAttainmentData
  split_ifs <;> simp

lemma trans_cumXP (acts : List Activity) :
    ∀ p ∈ (getCumulativeXPData acts).transitions,
      ∃ g ∈ groupActivitiesByDay (sortActivities acts),
        g.courseTransition = true ∧ p = (g.date, g.transitionFrom, g.transitionTo) := by
  unfold getCumulativeXPData
  split_ifs
  · intro p hp
    simp at hp
  · exact buildTransitionLookup_spec _

lemma trans_cumActs (acts : List Activity) :
    ∀ p ∈ (getCumulativeActivitiesData acts).transitions,
      ∃ g ∈ groupActivitiesByDay (sortActivities acts),
        g.courseTransition = true ∧ p = (g.date, g.transitionFrom, g.transitionTo) := by
  unfold getCumulativeActivitiesData
  split_ifs
  · intro p hp
    simp at hp
  · exact buildTransitionLookup_spec _

lemma trans_avgXP (acts : List Activity) :
    ∀ p ∈ (getAvgXPOverTimeData acts).transitions,
      ∃ g ∈ groupActivitiesByDay (sortActivities acts),
        g.courseTransition = true ∧ p = (g.date, g.transitionFrom, g.transitionTo) := by
  unfold getAvgXPOverTimeData
  split_ifs
  · intro p hp
    simp at hp
  · exact buildTransitionLookup_spec _

lemma trans_successRate (acts : List Activity) :
    ∀ p ∈ (getSuccessRateOverTimeData acts).transitions,
      ∃ g ∈ groupActivitiesByDay (sortActivities acts),
        g.courseTransition = true ∧ p = (g.date, g.transitionFrom, g.transitionTo) := by
  unfold getSuccessRateOverTimeData
  split_ifs
  · intro p hp
    simp at hp
  · exact buildTransitionLookup_spec _

/-- C8: every series-building operation returns labels and values of
equal length (positional correspondence), and every returned transitions
map holds entries only for days whose bucket records a course
transition. -/
theorem series_label_value_alignment (acts : List Activity) (today : Int) :
    ((getCumulativeXPData acts).labels.length = (getCumulativeXPData acts).values.length ∧
      (getCumulativeActivitiesData acts).labels.length =
        (getCumulativeActivitiesData acts).values.length ∧
      (getAvgXPOverTimeData acts).labels.length = (getAvgXPOverTimeData acts).values.length ∧
      (getSuccessRateOverTimeData acts).labels.length =
        (getSuccessRateOverTimeData acts).values.length ∧
      (getDailyXPData today acts).labels.length = (getDailyXPData today acts).values.length ∧
      (getWeeklyCumulativeXPData today acts).labels.length =
        (getWeeklyCumulativeXPData today acts).values.length ∧
      (getDailyActivitiesData today acts).labels.length =
        (getDailyActivitiesData today acts).values.length ∧
      (getWeeklyCumulativeActivitiesData today acts).labels.length =
        (getWeeklyCumulativeActivitiesData today acts).values.length ∧
      (getDailyAttainmentData today acts).labels.length =
        (getDailyAttainmentData today acts).values.length) ∧
    (∀ p ∈ (getCumulativeXPData acts).transitions,
        ∃ g ∈ groupActivitiesByDay (sortActivities acts),
          g.courseTransition = true ∧ p = (g.date, g.transitionFrom, g.transitionTo)) ∧
    (∀ p ∈ (getCumulativeActivitiesData acts).transitions,
        ∃ g ∈ groupActivitiesByDay (sortActivities acts),
          g.courseTransition = true ∧ p = (g.date, g.transitionFrom, g.transitionTo)) ∧
    (∀ p ∈ (getAvgXPOverTimeData acts).transitions,
        ∃ g ∈ groupActivitiesByDay (sortActivities acts),
          g.courseTransition = true ∧ p = (g.date, g.transitionFrom, g.transitionTo)) ∧
    (∀ p ∈ (getSuccessRateOverTimeData acts).transitions,
        ∃ g ∈ groupActivitiesByDay (sortActivities acts),
          g.courseTransition = true ∧ p = (g.date, g.transitionFrom, g.transitionTo)) := by
  exact ⟨⟨len_cumXP acts, len_cumActs acts, len_avgXP acts, len_successRate acts,
      len_dailyXP today acts, len_weeklyCumXP today acts, len_dailyActs today acts,
      len_weeklyCumActs today acts, len_dailyAttainment today acts⟩,
    trans_cumXP acts, trans_cumActs acts, trans_avgXP acts, trans_successRate acts⟩

/-- A two-day, two-course input that produces a course transition. -/
def transitionSample : List Activity :=
  [{ timestamp := ⟨20458, 0⟩, type := "lesson", course := "MF I", earned := 8, base := 10 },
   { timestamp := ⟨20459, 0⟩, type := "lesson", course := "MF II", earned := 9, base := 10 }]

/-- C8 witness: alignment and the transitions condition instantiated on
an input whose second day changes course. -/
theorem series_label_value_alignment_witness :
    (getCumulativeXPData transitionSample).labels.length =
        (getCumulativeXPData transitionSample).values.length ∧
      ("2026-01-06", "MF I", "MF II") ∈ (getCumulativeXPData transitionSample).transitions ∧
      ∃ g ∈ groupActivitiesByDay (sortActivities transitionSample),
        g.courseTransition = true ∧
          ("2026-01-06", "MF I", "MF II") = (g.date, g.transitionFrom, g.transitionTo) :=
  ⟨(series_label_value_alignment transitionSample 0).1.1, by decide,
    (series_label_value_alignment transitionSample 0).2.1 _ (by decide)⟩
